import Mathlib

/-!
Verification development for the SoundSwallower model-loading and
grammar-compilation core.

The definitions below shallowly embed the JavaScript API layer
(src/unnamed/part_001, second copy: classes Config and Decoder), the C
logging macros (src/include/soundswallower/err.h) and, where the C
engine sources (cmd_ln.c, fsg_model.c, jsgf.c) are not part of the
source tree, models of their behaviour taken from the specification
(spec sections 4.2, 6 and 7).  Keys and values are plain Lean data;
Emscripten heap handles are represented as natural numbers.
-/

namespace SoundSwallower

/-! ## Configuration store

Modelled from the spec: the consumed configuration store (cmd_ln.c,
not in the source tree) is a typed get/set table by string key over
four value kinds; a key exists or it does not, and the type of an
existing key is one of the four kinds (spec section 6).  We represent
it as an association list from keys (character lists) to tagged
values.  The prefix normalisation, set and get logic on top of it is
translated from the JavaScript Config class
(src/unnamed/part_001 lines 461-630). -/

/-- One of the four configuration value kinds: string, floating,
integer, boolean (ARG_STRING, ARG_FLOATING, ARG_INTEGER,
ARG_BOOLEAN). -/
inductive CVal where
  | s (v : String)
  | f (v : Rat)
  | i (v : Int)
  | b (v : Bool)
deriving DecidableEq, Repr

/-- A configuration key, as the list of its characters. -/
abbrev Key := List Char

/-- The configuration store: known parameters with their current
values.  A key is a known parameter exactly when it occurs here. -/
abbrev ConfigStore := List (Key × CVal)

/-- Lookup of a key in the store (the hash-table lookup behind
cmd_ln_type_r / cmd_ln_exists_r). -/
def store_find : ConfigStore → Key → Option CVal
  | [], _ => none
  | (k', v) :: rest, k => if k' = k then some v else store_find rest k

/-- Replace the value of an existing key (cmd_ln_set_*_r on a key
already present; a no-op when the key is absent). -/
def store_set : ConfigStore → Key → CVal → ConfigStore
  | [], _, _ => []
  | (k', v') :: rest, k, v =>
      if k' = k then (k', v) :: rest else (k', v') :: store_set rest k v

/-- Config.has: cmd_ln_exists_r on the raw, unnormalised key
(src/unnamed/part_001 lines 613-616). -/
def Config.has (c : ConfigStore) (k : Key) : Bool :=
  (store_find c k).isSome

/-- Config.normalize_key (src/unnamed/part_001 lines 497-524): an
underscore-prefixed key is returned unchanged; a dash-prefixed key is
remapped to the underscore form when that exists; a bare key tries the
underscore form, then the dash form, then itself; the empty key maps
to itself. -/
def normalize_key (c : ConfigStore) : Key → Key
  | [] => []
  | ch :: rest =>
      if ch = '_' then
        ch :: rest
      else if ch = '-' then
        let under_key := '_' :: rest
        if Config.has c under_key then under_key else ch :: rest
      else
        let under_key := '_' :: ch :: rest
        if Config.has c under_key then under_key
        else
          let dash_key := '-' :: ch :: rest
          if Config.has c dash_key then dash_key
          else ch :: rest

/-- Errors thrown by the configuration layer: ReferenceError for an
unknown parameter, TypeError for an unsupported parameter type. -/
inductive ConfigError where
  | referenceError
  | typeError
deriving DecidableEq, Repr

/-- Config.set (src/unnamed/part_001 lines 539-560): normalise the
key; a type of 0 (key absent) throws ReferenceError; otherwise the
value is stored under the normalised key according to its declared
kind. -/
def Config.set (c : ConfigStore) (key : Key) (val : CVal) :
    Except ConfigError ConfigStore :=
  let ckey := normalize_key c key
  match store_find c ckey with
  | none => .error .referenceError
  | some _ => .ok (store_set c ckey val)

/-- Config.get (src/unnamed/part_001 lines 567-591): normalise the
key; a type of 0 (key absent) throws ReferenceError; otherwise the
stored value is returned according to its declared kind. -/
def Config.get (c : ConfigStore) (key : Key) : Except ConfigError CVal :=
  let ckey := normalize_key c key
  match store_find c ckey with
  | none => .error .referenceError
  | some v => .ok v

/-! Basic store lemmas. -/

@[simp] theorem store_find_nil (k : Key) : store_find [] k = none := rfl

@[simp] theorem store_find_cons (k0 : Key) (v0 : CVal) (rest : ConfigStore)
    (k : Key) :
    store_find ((k0, v0) :: rest) k =
      if k0 = k then some v0 else store_find rest k := rfl

@[simp] theorem store_set_nil (k : Key) (v : CVal) : store_set [] k v = [] := rfl

@[simp] theorem store_set_cons (k0 : Key) (v0 : CVal) (rest : ConfigStore)
    (k : Key) (v : CVal) :
    store_set ((k0, v0) :: rest) k v =
      if k0 = k then (k0, v) :: rest else (k0, v0) :: store_set rest k v := rfl

theorem store_find_store_set (c : ConfigStore) (k k' : Key) (v : CVal) :
    store_find (store_set c k v) k' =
      if k' = k ∧ Config.has c k = true then some v else store_find c k' := by
  induction c with
  | nil => simp [Config.has]
  | cons p rest ih =>
    obtain ⟨k0, v0⟩ := p
    by_cases h0 : k0 = k <;> by_cases h1 : k0 = k' <;> by_cases h2 : k' = k <;>
        simp [Config.has, h0, h1, h2, ih] <;> simp_all [Config.has]

theorem has_store_set (c : ConfigStore) (k k' : Key) (v : CVal) :
    Config.has (store_set c k v) k' = Config.has c k' := by
  rw [Config.has, Config.has, store_find_store_set]
  by_cases h : k' = k ∧ Config.has c k = true
  · rw [if_pos h]
    obtain ⟨h1, h2⟩ := h
    rw [h1]
    rw [Config.has] at h2
    simp [h2]
  · rw [if_neg h]

/-- The key that normalize_key resolves to is itself a known parameter
whenever the raw key is one. -/
theorem has_normalize_of_has (c : ConfigStore) (k : Key)
    (h : Config.has c k = true) : Config.has c (normalize_key c k) = true := by
  match k with
  | [] => exact h
  | ch :: rest =>
    rw [normalize_key]
    by_cases h1 : ch = '_'
    · rw [if_pos h1]
      exact h
    · rw [if_neg h1]
      by_cases h2 : ch = '-'
      · rw [if_pos h2]
        by_cases h3 : Config.has c ('_' :: rest) = true
        · rwa [if_pos h3]
        · rw [if_neg h3]
          exact h
      · rw [if_neg h2]
        by_cases h3 : Config.has c ('_' :: ch :: rest) = true
        · rwa [if_pos h3]
        · rw [if_neg h3]
          by_cases h4 : Config.has c ('-' :: ch :: rest) = true
          · rwa [if_pos h4]
          · rw [if_neg h4]
            exact h

/-- Config.has of a key is false exactly when the lookup finds
nothing. -/
theorem has_false_iff_find_none (c : ConfigStore) (k : Key) :
    Config.has c k = false ↔ store_find c k = none := by
  rw [Config.has]
  cases store_find c k <;> simp

/-- C7: for a configuration key that is not a known parameter of the
store -- unknown as given and under every prefix variant that
normalize_key may try -- both Config.set and Config.get throw
ReferenceError.  Both operations are pure here: an error result
returns no updated store, matching the source, where the throw happens
before any cmd_ln mutation. -/
theorem C7_unknown_config_key_rejected (c : ConfigStore) (key : Key) (val : CVal)
    (h1 : Config.has c key = false)
    (h2 : Config.has c ('_' :: key) = false)
    (h3 : Config.has c ('-' :: key) = false)
    (h4 : Config.has c ('_' :: key.tail) = false) :
    Config.set c key val = Except.error ConfigError.referenceError ∧
    Config.get c key = Except.error ConfigError.referenceError := by
  have hnorm : store_find c (normalize_key c key) = none := by
    rw [← has_false_iff_find_none]
    match key with
    | [] => exact h1
    | ch :: rest =>
      rw [normalize_key]
      by_cases e1 : ch = '_'
      · rw [if_pos e1]
        exact h1
      · rw [if_neg e1]
        by_cases e2 : ch = '-'
        · rw [if_pos e2]
          rw [if_neg]
          · exact h1
          · simp only [List.tail_cons] at h4
            simp [h4]
        · rw [if_neg e2]
          rw [if_neg, if_neg]
          · exact h1
          · simp [h3]
          · simp [h2]
  constructor
  · rw [Config.set]
    simp only [hnorm]
  · rw [Config.get]
    simp only [hnorm]

/-- Witness for C7 at a concrete store with one dash-registered
parameter and an unrelated key. -/
theorem C7_unknown_config_key_rejected_witness :
    (Config.has [("-lw".toList, CVal.f 65)] "bogus".toList = false ∧
      Config.has [("-lw".toList, CVal.f 65)] ('_' :: "bogus".toList) = false ∧
      Config.has [("-lw".toList, CVal.f 65)] ('-' :: "bogus".toList) = false ∧
      Config.has [("-lw".toList, CVal.f 65)] ('_' :: "bogus".toList.tail) = false) ∧
    (Config.set [("-lw".toList, CVal.f 65)] "bogus".toList (CVal.i 3) =
        Except.error ConfigError.referenceError ∧
      Config.get [("-lw".toList, CVal.f 65)] "bogus".toList =
        Except.error ConfigError.referenceError) :=
  ⟨⟨by decide, by decide, by decide, by decide⟩,
    C7_unknown_config_key_rejected _ _ _ (by decide) (by decide) (by decide)
      (by decide)⟩

/-- C10 counterexample: in the store whose only parameter is
registered under the dash form "-lw", the parameter is known and
reachable through the dash and bare forms, but the underscore form
"_lw" is returned unchanged by normalize_key and fails with
ReferenceError.  Key lookup is therefore not insensitive to the
leading prefix character for every known parameter. -/
theorem C10_prefix_insensitivity_cex :
    Config.has [("-lw".toList, CVal.f 65)] "-lw".toList = true ∧
    Config.get [("-lw".toList, CVal.f 65)] "-lw".toList = Except.ok (CVal.f 65) ∧
    Config.get [("-lw".toList, CVal.f 65)] "lw".toList = Except.ok (CVal.f 65) ∧
    Config.get [("-lw".toList, CVal.f 65)] "_lw".toList =
      Except.error ConfigError.referenceError :=
  ⟨rfl, rfl, rfl, rfl⟩

/-- C10 amended: prefix insensitivity holds exactly for parameters
registered under the underscore form.  For a store that knows the
underscore key, all three access forms (underscore, dash, bare)
normalize to that underscore key, and a set through any form followed
by a get through any form yields the written value; a parameter
registered only under the dash or bare form is not reachable through
an underscore-prefixed key, as the counterexample shows. -/
theorem C10_prefix_insensitive_underscore_params (c : ConfigStore) (ch : Char)
    (rest : Key) (h1 : ch ≠ '_') (h2 : ch ≠ '-')
    (hu : Config.has c ('_' :: ch :: rest) = true) (v : CVal) :
    ∀ k1 ∈ ['_' :: ch :: rest, '-' :: ch :: rest, ch :: rest],
      ∀ k2 ∈ ['_' :: ch :: rest, '-' :: ch :: rest, ch :: rest],
        normalize_key c k1 = '_' :: ch :: rest ∧
        Config.set c k1 v = Except.ok (store_set c ('_' :: ch :: rest) v) ∧
        Config.get (store_set c ('_' :: ch :: rest) v) k2 = Except.ok v := by
  have hnorm : ∀ c' : ConfigStore, Config.has c' ('_' :: ch :: rest) = true →
      ∀ k ∈ ['_' :: ch :: rest, '-' :: ch :: rest, ch :: rest],
        normalize_key c' k = '_' :: ch :: rest := by
    intro c' hu' k hk
    simp only [List.mem_cons, List.not_mem_nil, or_false] at hk
    rcases hk with hk | hk | hk <;> subst hk
    · rw [normalize_key, if_pos rfl]
    · rw [normalize_key, if_neg (by decide), if_pos rfl, if_pos hu']
    · rw [normalize_key, if_neg h1, if_neg h2, if_pos hu']
  intro k1 hk1 k2 hk2
  have hfind : store_find c ('_' :: ch :: rest) ≠ none := by
    intro hnone
    rw [← has_false_iff_find_none] at hnone
    rw [hu] at hnone
    exact Bool.noConfusion hnone
  refine ⟨hnorm c hu k1 hk1, ?_, ?_⟩
  · rw [Config.set]
    simp only [hnorm c hu k1 hk1]
    cases hv : store_find c ('_' :: ch :: rest) with
    | none => exact absurd hv hfind
    | some v0 => rfl
  · have hu' : Config.has (store_set c ('_' :: ch :: rest) v) ('_' :: ch :: rest) = true := by
      rw [has_store_set]
      exact hu
    rw [Config.get]
    simp only [hnorm _ hu' k2 hk2]
    rw [store_find_store_set, if_pos ⟨rfl, hu⟩]

/-- Witness for C10 amended at a concrete store registering the
underscore parameter _lw, written through the bare form and read
through the dash form. -/
theorem C10_prefix_insensitive_underscore_params_witness :
    ('l' : Char) ≠ '_' ∧ ('l' : Char) ≠ '-' ∧
    Config.has [("_lw".toList, CVal.f 65)] ('_' :: 'l' :: "w".toList) = true ∧
    (normalize_key [("_lw".toList, CVal.f 65)] ('l' :: "w".toList) =
        '_' :: 'l' :: "w".toList ∧
      Config.set [("_lw".toList, CVal.f 65)] ('l' :: "w".toList) (CVal.i 42) =
        Except.ok (store_set [("_lw".toList, CVal.f 65)]
          ('_' :: 'l' :: "w".toList) (CVal.i 42)) ∧
      Config.get (store_set [("_lw".toList, CVal.f 65)]
          ('_' :: 'l' :: "w".toList) (CVal.i 42)) ('-' :: 'l' :: "w".toList) =
        Except.ok (CVal.i 42)) :=
  ⟨by decide, by decide, by decide,
    C10_prefix_insensitive_underscore_params _ 'l' "w".toList (by decide)
      (by decide) (by decide) (CVal.i 42) _ (by simp) _ (by simp)⟩

/-! ## Configuration resolution (Config constructor and Decoder.init_featparams)

The Config constructor (src/unnamed/part_001 lines 473-488) starts
from the engine defaults and sets every caller-supplied pair through
Config.set; Decoder.init_featparams (lines 699-705) then walks the
key/value pairs read from the acoustic model's feat.params file and,
for each pair, stores it only when the raw key is a known parameter
(Config.has), silently skipping all others. -/

/-- Setting a known key succeeds and rewrites the store under the
normalised key. -/
theorem set_ok_of_has (c : ConfigStore) (k : Key) (v : CVal)
    (h : Config.has c k = true) :
    Config.set c k v = Except.ok (store_set c (normalize_key c k) v) := by
  have hn := has_normalize_of_has c k h
  rw [Config.set]
  cases hf : store_find c (normalize_key c k) with
  | none =>
      rw [← has_false_iff_find_none] at hf
      rw [hn] at hf
      exact Bool.noConfusion hf
  | some v0 => rfl

/-- The caller-over-defaults merge performed by the Config
constructor: each dictionary pair is stored through Config.set, and
the first unknown key aborts with ReferenceError. -/
def config_merge : ConfigStore → List (Key × CVal) → Except ConfigError ConfigStore
  | c, [] => .ok c
  | c, (k, v) :: rest =>
      match Config.set c k v with
      | .error e => .error e
      | .ok c' => config_merge c' rest

/-- Decoder.init_featparams (src/unnamed/part_001 lines 699-705): walk
the pairs generated from feat.params; a pair is stored only when
Config.has holds of its raw key, otherwise it is skipped. -/
def init_featparams (c : ConfigStore) :
    List (Key × CVal) → Except ConfigError ConfigStore
  | [] => .ok c
  | (k, v) :: rest =>
      if Config.has c k then
        match Config.set c k v with
        | .error e => .error e
        | .ok c' => init_featparams c' rest
      else init_featparams c rest

/-- Configuration resolution as staged by Decoder.initialize: merge
caller parameters over defaults (Config constructor), then overlay the
model-declared feature parameters (init_featparams). -/
def resolve_config (defaults : ConfigStore) (dict fileParams : List (Key × CVal)) :
    Except ConfigError ConfigStore :=
  match config_merge defaults dict with
  | .error e => .error e
  | .ok c => init_featparams c fileParams

/-- init_featparams always succeeds and never changes the set of known
parameters. -/
theorem init_featparams_ok (pairs : List (Key × CVal)) :
    ∀ c : ConfigStore, ∃ c', init_featparams c pairs = Except.ok c' ∧
      ∀ k, Config.has c' k = Config.has c k := by
  induction pairs with
  | nil => exact fun c => ⟨c, rfl, fun _ => rfl⟩
  | cons p rest ih =>
    intro c
    obtain ⟨k, v⟩ := p
    by_cases h : Config.has c k = true
    · obtain ⟨c', hc', hkeys⟩ := ih (store_set c (normalize_key c k) v)
      refine ⟨c', ?_, ?_⟩
      · rw [init_featparams, if_pos h, set_ok_of_has c k v h]
        exact hc'
      · intro k'
        rw [hkeys k', has_store_set]
    · obtain ⟨c', hc', hkeys⟩ := ih c
      refine ⟨c', ?_, hkeys⟩
      rw [init_featparams, if_neg h]
      exact hc'

/-- Pairs whose key the store does not recognise contribute nothing:
init_featparams gives the same result on the recognised sublist. -/
theorem init_featparams_filter (pairs : List (Key × CVal)) :
    ∀ c : ConfigStore, init_featparams c pairs =
      init_featparams c (pairs.filter fun p => Config.has c p.1) := by
  induction pairs with
  | nil => intro c; rfl
  | cons p rest ih =>
    intro c
    obtain ⟨k, v⟩ := p
    by_cases h : Config.has c k = true
    · rw [init_featparams, if_pos h, set_ok_of_has c k v h]
      have hfil : List.filter (fun p => Config.has c p.1) ((k, v) :: rest) =
          (k, v) :: List.filter (fun p => Config.has c p.1) rest := by
        simp [List.filter, h]
      rw [hfil, init_featparams, if_pos h, set_ok_of_has c k v h]
      have hcongr : List.filter (fun p => Config.has c p.1) rest =
          List.filter (fun p => Config.has (store_set c (normalize_key c k) v) p.1) rest := by
        apply List.filter_congr
        intro x _
        rw [has_store_set]
      rw [hcongr]
      exact ih (store_set c (normalize_key c k) v)
    · rw [init_featparams, if_neg h]
      have hfil : List.filter (fun p => Config.has c p.1) ((k, v) :: rest) =
          List.filter (fun p => Config.has c p.1) rest := by
        simp [List.filter, h]
      rw [hfil]
      exact ih c

/-- C5: configuration resolution merges caller parameters over
defaults (config_merge) and then overlays the model's feat.params
pairs; given the merge result, the overlay always succeeds, leaves the
set of known parameters unchanged, and is insensitive to the pairs
whose keys the store does not recognise -- an unrecognised key in the
model parameter file can never make initialization fail. -/
theorem C5_tolerant_featparams_overlay (defaults : ConfigStore)
    (dict fileParams : List (Key × CVal)) (c : ConfigStore)
    (hmerge : config_merge defaults dict = Except.ok c) :
    (∃ c', resolve_config defaults dict fileParams = Except.ok c' ∧
        ∀ k, Config.has c' k = Config.has c k) ∧
    resolve_config defaults dict fileParams =
      init_featparams c (fileParams.filter fun p => Config.has c p.1) := by
  have hres : resolve_config defaults dict fileParams = init_featparams c fileParams := by
    rw [resolve_config, hmerge]
  constructor
  · rw [hres]
    exact init_featparams_ok fileParams c
  · rw [hres]
    exact init_featparams_filter fileParams c

/-- Witness for C5 at a concrete store: defaults register _samprate
and -lw, the caller overrides samprate, and feat.params supplies a
known key (-lw) together with an unknown key (-bogus) that is
ignored. -/
theorem C5_tolerant_featparams_overlay_witness :
    config_merge
        [("_samprate".toList, CVal.i 44100), ("-lw".toList, CVal.f 65)]
        [("samprate".toList, CVal.i 8000)] =
      Except.ok [("_samprate".toList, CVal.i 8000), ("-lw".toList, CVal.f 65)] ∧
    ((∃ c', resolve_config
          [("_samprate".toList, CVal.i 44100), ("-lw".toList, CVal.f 65)]
          [("samprate".toList, CVal.i 8000)]
          [("-lw".toList, CVal.f 7), ("-bogus".toList, CVal.s "x")] =
            Except.ok c' ∧
        ∀ k, Config.has c' k =
          Config.has [("_samprate".toList, CVal.i 8000), ("-lw".toList, CVal.f 65)] k) ∧
      resolve_config
          [("_samprate".toList, CVal.i 44100), ("-lw".toList, CVal.f 65)]
          [("samprate".toList, CVal.i 8000)]
          [("-lw".toList, CVal.f 7), ("-bogus".toList, CVal.s "x")] =
        init_featparams [("_samprate".toList, CVal.i 8000), ("-lw".toList, CVal.f 65)]
          (List.filter
            (fun p => Config.has
              [("_samprate".toList, CVal.i 8000), ("-lw".toList, CVal.f 65)] p.1)
            [("-lw".toList, CVal.f 7), ("-bogus".toList, CVal.s "x")])) :=
  ⟨rfl, C5_tolerant_featparams_overlay _ _ _ _ rfl⟩

/-! ## Initialization sequencer (Decoder.initialize)

Decoder.initialize (src/unnamed/part_001 lines 661-681) awaits, in
order: init_config, init_fe, init_feat, init_acmod (acoustic
pre-initialization), load_acmod_files -- which itself awaits
load_mdef, load_tmat, load_gmm and then ps_init_acmod_post (lines
737-750) -- then init_dict and init_grammar, and only afterwards sets
the initialized flag.  Each helper throws on failure, which aborts the
remaining awaits.  We model the success or failure of the engine work
behind each stage by a stage oracle, and record the trace of stages
entered; a thrown error carries the trace up to and including the
failing stage. -/

/-- The ten initialization stages in their declared order. -/
inductive Stage where
  | init_config
  | init_fe
  | init_feat
  | init_acmod_pre
  | load_mdef
  | load_tmat
  | load_gmm
  | init_acmod_post
  | init_dict
  | init_grammar
deriving DecidableEq, Repr

/-- The declared stage order of Decoder.initialize and
Decoder.load_acmod_files. -/
def initStages : List Stage :=
  [.init_config, .init_fe, .init_feat, .init_acmod_pre, .load_mdef,
   .load_tmat, .load_gmm, .init_acmod_post, .init_dict, .init_grammar]

/-- Exception propagation of an awaited call: an error short-circuits
everything after it. -/
def eseq {ε α β : Type} : Except ε α → (α → Except ε β) → Except ε β
  | .error e, _ => .error e
  | .ok a, f => f a

/-- Run one stage: enter it (append it to the trace), then either
complete or throw, according to the stage oracle. -/
def step (ok : Stage → Bool) (tr : List Stage) (s : Stage) :
    Except (List Stage) (List Stage) :=
  if ok s then .ok (tr ++ [s]) else .error (tr ++ [s])

/-- Decoder.load_acmod_files (src/unnamed/part_001 lines 737-750):
model-definition load, transition-matrix load, Gaussian-parameter
load, acoustic post-initialization, each awaited in order. -/
def load_acmod_files (ok : Stage → Bool) (tr : List Stage) :
    Except (List Stage) (List Stage) :=
  eseq (step ok tr .load_mdef) fun tr =>
  eseq (step ok tr .load_tmat) fun tr =>
  eseq (step ok tr .load_gmm) fun tr =>
  step ok tr .init_acmod_post

/-- Decoder.initialize's awaited stage sequence (src/unnamed/part_001
lines 672-678). -/
def initialize_stages (ok : Stage → Bool) : Except (List Stage) (List Stage) :=
  eseq (step ok [] .init_config) fun tr =>
  eseq (step ok tr .init_fe) fun tr =>
  eseq (step ok tr .init_feat) fun tr =>
  eseq (step ok tr .init_acmod_pre) fun tr =>
  eseq (load_acmod_files ok tr) fun tr =>
  eseq (step ok tr .init_dict) fun tr =>
  step ok tr .init_grammar

/-- Characterization of the stage sequence: when every stage succeeds
the trace is exactly the declared order; otherwise the attempt aborts
at the first failing stage, having entered exactly the successful
prefix plus that stage. -/
theorem initialize_stages_spec (ok : Stage → Bool) :
    initialize_stages ok =
      if initStages.all ok then Except.ok initStages
      else Except.error
        (initStages.takeWhile ok ++ (initStages.dropWhile ok).take 1) := by
  cases h1 : ok .init_config
  · simp [initialize_stages, eseq, step, initStages, h1]
  · cases h2 : ok .init_fe
    · simp [initialize_stages, eseq, step, initStages, h1, h2]
    · cases h3 : ok .init_feat
      · simp [initialize_stages, eseq, step, initStages, h1, h2, h3]
      · cases h4 : ok .init_acmod_pre
        · simp [initialize_stages, eseq, step, initStages, h1, h2, h3, h4]
        · cases h5 : ok .load_mdef
          · simp [initialize_stages, load_acmod_files, eseq, step, initStages,
              h1, h2, h3, h4, h5]
          · cases h6 : ok .load_tmat
            · simp [initialize_stages, load_acmod_files, eseq, step, initStages,
                h1, h2, h3, h4, h5, h6]
            · cases h7 : ok .load_gmm
              · simp [initialize_stages, load_acmod_files, eseq, step, initStages,
                  h1, h2, h3, h4, h5, h6, h7]
              · cases h8 : ok .init_acmod_post
                · simp [initialize_stages, load_acmod_files, eseq, step, initStages,
                    h1, h2, h3, h4, h5, h6, h7, h8]
                · cases h9 : ok .init_dict
                  · simp [initialize_stages, load_acmod_files, eseq, step, initStages,
                      h1, h2, h3, h4, h5, h6, h7, h8, h9]
                  · cases h10 : ok .init_grammar
                    · simp [initialize_stages, load_acmod_files, eseq, step, initStages,
                        h1, h2, h3, h4, h5, h6, h7, h8, h9, h10]
                    · simp [initialize_stages, load_acmod_files, eseq, step, initStages,
                        h1, h2, h3, h4, h5, h6, h7, h8, h9, h10]

/-- C1: Decoder.initialize executes configuration resolution,
front-end construction, feature-module construction, acoustic
pre-initialization, model-definition load, transition-matrix load,
Gaussian-parameter load, acoustic post-initialization, dictionary load
and grammar installation in exactly that order: the attempt succeeds
with the full declared trace exactly when every stage succeeds, and
otherwise the trace is the successful prefix followed by the first
failing stage -- no stage is skipped, none is entered early, and the
first failure aborts all remaining stages. -/
theorem C1_initialize_stage_order (ok : Stage → Bool) :
    initialize_stages ok =
      if initStages.all ok then Except.ok initStages
      else Except.error
        (initStages.takeWhile ok ++ (initStages.dropWhile ok).take 1) :=
  initialize_stages_spec ok

/-! ## Decoder construction and the initialized flag

The Decoder constructor (src/unnamed/part_001 lines 645-654) sets the
initialized flag to false; Decoder.initialize sets it to true only
after all stages complete (line 680); assert_initialized (lines
820-823) throws when the flag is still false.  Every post-init method
calls assert_initialized before touching the engine, so an
uninitialized call returns the decoder unchanged together with the
thrown error.  The engine calls behind each method are modelled by
their success values. -/

/-- The JavaScript-visible decoder state relevant here: the
initialized flag set by the constructor and by initialize. -/
structure DecState where
  initialized : Bool
deriving DecidableEq, Repr

/-- The Decoder constructor: this.initialized = false. -/
def Decoder.construct : DecState := { initialized := false }

/-- Decoder.assert_initialized (src/unnamed/part_001 lines 820-823). -/
def assert_initialized (s : DecState) : Except String Unit :=
  if s.initialized then .ok () else .error "Decoder not yet initialized"

/-- Decoder.initialize (lines 661-681): run the stage sequence; on
success set the initialized flag, on failure rethrow and leave the
decoder state as it was. -/
def Decoder.run_initialize (ok : Stage → Bool) (s : DecState) :
    DecState × Except (List Stage) Unit :=
  match initialize_stages ok with
  | .ok _ => ({ s with initialized := true }, .ok ())
  | .error tr => (s, .error tr)

/-- A method body guarded by assert_initialized: every
post-initialization method first asserts, then performs its engine
work (which never touches the JavaScript-side state). -/
def guarded (s : DecState) (body : Except String Unit) :
    DecState × Except String Unit :=
  match assert_initialized s with
  | .error e => (s, .error e)
  | .ok _ => (s, body)

/-- Engine outcome of a call returning an int checked by the wrapper:
ok when the check passes, an error with the method's message
otherwise. -/
def engine (okCall : Bool) (msg : String) : Except String Unit :=
  if okCall then .ok () else .error msg

/-- Decoder.start (lines 849-854). -/
def Decoder.start (okCall : Bool) (s : DecState) : DecState × Except String Unit :=
  guarded s (engine okCall "Failed to start utterance processing")

/-- Decoder.stop (lines 860-865). -/
def Decoder.stop (okCall : Bool) (s : DecState) : DecState × Except String Unit :=
  guarded s (engine okCall "Failed to stop utterance processing")

/-- Decoder.process (lines 874-889). -/
def Decoder.process (okCall : Bool) (s : DecState) : DecState × Except String Unit :=
  guarded s (engine okCall "Utterance processing failed")

/-- Decoder.get_hyp (lines 895-898): returns the engine string, never
fails once initialized. -/
def Decoder.get_hyp (s : DecState) : DecState × Except String Unit :=
  guarded s (.ok ())

/-- Decoder.get_hypseg (lines 905-925): walks the segment iterator,
never fails once initialized. -/
def Decoder.get_hypseg (s : DecState) : DecState × Except String Unit :=
  guarded s (.ok ())

/-- Decoder.lookup_word (lines 933-940): returns the pronunciation or
null, never fails once initialized. -/
def Decoder.lookup_word (s : DecState) : DecState × Except String Unit :=
  guarded s (.ok ())

/-- Decoder.add_word (lines 950-959). -/
def Decoder.add_word (okCall : Bool) (s : DecState) : DecState × Except String Unit :=
  guarded s (engine okCall "Failed to add word to the dictionary.")

/-- Decoder.create_fsg entry guard (line 974). -/
def Decoder.create_fsg_entry (s : DecState) : DecState × Except String Unit :=
  guarded s (.ok ())

/-- Decoder.parse_jsgf entry guard (line 1025). -/
def Decoder.parse_jsgf_entry (s : DecState) : DecState × Except String Unit :=
  guarded s (.ok ())

/-- Decoder.set_fsg (lines 1063-1068). -/
def Decoder.set_fsg (okCall : Bool) (s : DecState) : DecState × Except String Unit :=
  guarded s (engine okCall "Failed to set FSG in decoder")

/-- Decoder.reinitialize_audio (lines 829-832). -/
def Decoder.reinitialize_audio (s : DecState) : DecState × Except String Unit :=
  guarded s (.ok ())

/-- C8: the initialized flag is false at construction and, starting
from a fresh decoder, becomes true exactly when every initialization
stage completes; while it is false, each of the eleven
post-initialization operations returns the error message about the
decoder not yet being initialized and leaves the decoder state
unchanged. -/
theorem C8_initialized_flag_guards (ok : Stage → Bool) (okCall : Bool)
    (s : DecState) (h : s.initialized = false) :
    Decoder.construct.initialized = false ∧
    ((Decoder.run_initialize ok Decoder.construct).1.initialized = true ↔
      initStages.all ok = true) ∧
    Decoder.start okCall s = (s, .error "Decoder not yet initialized") ∧
    Decoder.stop okCall s = (s, .error "Decoder not yet initialized") ∧
    Decoder.process okCall s = (s, .error "Decoder not yet initialized") ∧
    Decoder.get_hyp s = (s, .error "Decoder not yet initialized") ∧
    Decoder.get_hypseg s = (s, .error "Decoder not yet initialized") ∧
    Decoder.lookup_word s = (s, .error "Decoder not yet initialized") ∧
    Decoder.add_word okCall s = (s, .error "Decoder not yet initialized") ∧
    Decoder.create_fsg_entry s = (s, .error "Decoder not yet initialized") ∧
    Decoder.parse_jsgf_entry s = (s, .error "Decoder not yet initialized") ∧
    Decoder.set_fsg okCall s = (s, .error "Decoder not yet initialized") ∧
    Decoder.reinitialize_audio s = (s, .error "Decoder not yet initialized") := by
  have hguard : ∀ body, guarded s body = (s, .error "Decoder not yet initialized") := by
    intro body
    rw [guarded, assert_initialized, h]
    rfl
  have hinit : (Decoder.run_initialize ok Decoder.construct).1.initialized = true ↔
      initStages.all ok = true := by
    rw [Decoder.run_initialize, initialize_stages_spec]
    by_cases hall : initStages.all ok = true
    · simp [hall]
    · simp [hall, Decoder.construct]
  refine ⟨rfl, hinit, ?_, ?_, ?_, ?_, ?_, ?_, ?_, ?_, ?_, ?_, ?_⟩ <;>
    exact hguard _

/-- Witness for C8 on a freshly constructed decoder with an
all-failing oracle. -/
theorem C8_initialized_flag_guards_witness :
    (Decoder.construct.initialized = false) ∧
    (Decoder.construct.initialized = false ∧
      ((Decoder.run_initialize (fun _ => false) Decoder.construct).1.initialized = true ↔
        initStages.all (fun _ => false) = true) ∧
      Decoder.start true Decoder.construct =
        (Decoder.construct, .error "Decoder not yet initialized") ∧
      Decoder.stop true Decoder.construct =
        (Decoder.construct, .error "Decoder not yet initialized") ∧
      Decoder.process true Decoder.construct =
        (Decoder.construct, .error "Decoder not yet initialized") ∧
      Decoder.get_hyp Decoder.construct =
        (Decoder.construct, .error "Decoder not yet initialized") ∧
      Decoder.get_hypseg Decoder.construct =
        (Decoder.construct, .error "Decoder not yet initialized") ∧
      Decoder.lookup_word Decoder.construct =
        (Decoder.construct, .error "Decoder not yet initialized") ∧
      Decoder.add_word true Decoder.construct =
        (Decoder.construct, .error "Decoder not yet initialized") ∧
      Decoder.create_fsg_entry Decoder.construct =
        (Decoder.construct, .error "Decoder not yet initialized") ∧
      Decoder.parse_jsgf_entry Decoder.construct =
        (Decoder.construct, .error "Decoder not yet initialized") ∧
      Decoder.set_fsg true Decoder.construct =
        (Decoder.construct, .error "Decoder not yet initialized") ∧
      Decoder.reinitialize_audio Decoder.construct =
        (Decoder.construct, .error "Decoder not yet initialized")) :=
  ⟨rfl, C8_initialized_flag_guards (fun _ => false) true Decoder.construct rfl⟩

/-! ## Gaussian-parameter loading (Decoder.load_gmm)

Decoder.load_gmm (src/unnamed/part_001 lines 781-796) loads the means
and variances files, then tries the compact quantized source (sendump)
first; only when that load throws does it fall back to the raw source
(mixture_weights).  The chosen handle is passed to the C entry point
_load_gmm, with the other argument passed as the null handle 0.
Availability of each byte source and the outcome of the C call are
modelled by oracles; handles are fixed distinct naturals. -/

/-- Which files the model directory provides (load_to_s3file succeeds
exactly on the available ones). -/
structure GmmFiles where
  means : Bool
  variances : Bool
  sendump : Bool
  mixw : Bool
deriving DecidableEq, Repr

/-- The argument tuple of the final Module._load_gmm call; 0 is the
null handle. -/
structure GmmCall where
  means : Nat
  variances : Nat
  mixw : Nat
  sendump : Nat
deriving DecidableEq, Repr

/-- load_to_s3file (src/unnamed/part_001 lines 1193-1203): returns the
handle of the loaded byte source or throws when it is unavailable. -/
def load_to_s3file (avail : Bool) (handle : Nat) : Except String Nat :=
  if avail then .ok handle else .error "Failed to load file"

/-- Decoder.load_gmm (src/unnamed/part_001 lines 781-796).  The first
component is the call's outcome as seen by the caller; the second
records the _load_gmm invocation, none when control never reaches
it. -/
def load_gmm (env : GmmFiles) (cok : GmmCall → Bool) :
    Except String Unit × Option GmmCall :=
  match load_to_s3file env.means 1 with
  | .error e => (.error e, none)
  | .ok means_h =>
  match load_to_s3file env.variances 2 with
  | .error e => (.error e, none)
  | .ok var_h =>
  match
    (match load_to_s3file env.sendump 3 with
     | .ok s => Except.ok (s, 0)
     | .error _ =>
       match load_to_s3file env.mixw 4 with
       | .ok m => Except.ok (0, m)
       | .error e => Except.error e) with
  | .error e => (.error e, none)
  | .ok (sendump_h, mixw_h) =>
    let call : GmmCall :=
      { means := means_h, variances := var_h, mixw := mixw_h, sendump := sendump_h }
    if cok call then (.ok (), some call)
    else (.error "Failed to load GMM parameters", some call)

/-- C2: the compact source is always attempted first -- whenever
means, variances and sendump are available, _load_gmm receives the
sendump handle and a null mixture-weight handle, whatever the raw
source's availability; when sendump is unavailable but the raw source
is, loading falls back to it (null sendump handle) and still succeeds
when the C load accepts it; and in every run that reaches _load_gmm,
the raw source was loaded exactly when the compact one was
unavailable. -/
theorem C2_gaussian_sendump_fallback (env : GmmFiles) (cok : GmmCall → Bool) :
    (env.means = true → env.variances = true → env.sendump = true →
      (load_gmm env cok).2 =
        some { means := 1, variances := 2, mixw := 0, sendump := 3 }) ∧
    (env.means = true → env.variances = true → env.sendump = false →
      env.mixw = true →
      (load_gmm env cok).2 =
        some { means := 1, variances := 2, mixw := 4, sendump := 0 } ∧
      (cok { means := 1, variances := 2, mixw := 4, sendump := 0 } = true →
        (load_gmm env cok).1 = .ok ())) ∧
    (∀ call, (load_gmm env cok).2 = some call →
      (call.mixw ≠ 0 ↔ env.sendump = false)) := by
  obtain ⟨m, v, sd, mw⟩ := env
  refine ⟨?_, ?_, ?_⟩
  · intro hm hv hs
    simp only at hm hv hs
    subst hm; subst hv; subst hs
    cases mw <;> simp [load_gmm, load_to_s3file] <;> split <;> rfl
  · intro hm hv hs hw
    simp only at hm hv hs hw
    subst hm; subst hv; subst hs; subst hw
    constructor
    · simp [load_gmm, load_to_s3file]
      split <;> rfl
    · intro hc
      simp [load_gmm, load_to_s3file, hc]
  · intro call hcall
    cases m <;> cases v <;> cases sd <;> cases mw <;>
        simp [load_gmm, load_to_s3file] at hcall <;>
        split at hcall <;> simp_all <;> rw [← hcall] <;> decide

/-- Witness for C2: with every file available the compact source is
used; with only the raw source available loading succeeds through the
fallback. -/
theorem C2_gaussian_sendump_fallback_witness :
    ((load_gmm ⟨true, true, true, true⟩ (fun _ => true)).2 =
      some { means := 1, variances := 2, mixw := 0, sendump := 3 }) ∧
    ((load_gmm ⟨true, true, false, true⟩ (fun _ => true)).2 =
      some { means := 1, variances := 2, mixw := 4, sendump := 0 }) ∧
    ((load_gmm ⟨true, true, false, true⟩ (fun _ => true)).1 = .ok ()) :=
  ⟨(C2_gaussian_sendump_fallback ⟨true, true, true, true⟩ (fun _ => true)).1
      rfl rfl rfl,
   ((C2_gaussian_sendump_fallback ⟨true, true, false, true⟩ (fun _ => true)).2.1
      rfl rfl rfl rfl).1,
   ((C2_gaussian_sendump_fallback ⟨true, true, false, true⟩ (fun _ => true)).2.1
      rfl rfl rfl rfl).2 rfl⟩

/-! ## Grammar automaton and explicit-list compilation (Decoder.create_fsg)

The automaton operations live in fsg_model.c, which is not part of
the source tree; they are modelled from the spec (section 4.2): create
allocates an automaton with empty transitions and word table; add_word
is idempotent and assigns the next sequential id; add_transition and
add_null_transition append one transition, the language weight
uniformly scaling every stored log-probability; allocation failure
(ResourceError) is abstracted by a word-failure oracle, a failing add
standing for the C function returning -1.  Decoder.create_fsg itself
(src/unnamed/part_001 lines 973-1013, identically lines 296-335 of the
first copy) is translated from the source. -/

/-- One automaton transition: endpoints, stored (language-weighted)
log-probability, and the word id -- none for a null (epsilon)
transition. -/
structure FsgTrans where
  t_from : Nat
  t_to : Nat
  logs2prob : Rat
  wid : Option Nat
deriving DecidableEq, Repr

/-- Modelled from the spec: the grammar automaton (fsg_model_t) with
name, language weight, state count, distinguished states, word table
(text to sequential id, in insertion order) and ordered transition
list. -/
structure FsgModel where
  name : String
  lw : Rat
  n_state : Nat
  start_state : Nat
  final_state : Nat
  vocab : List String
  transitions : List FsgTrans
deriving DecidableEq, Repr

/-- Position of a word in the word table (the id add_word returns for
a word already present). -/
def vocab_index : List String → String → Option Nat
  | [], _ => none
  | v :: rest, w => if v = w then some 0 else (vocab_index rest w).map (· + 1)

/-- Modelled from the spec: fsg_model_init allocates an automaton with
empty transitions and word table. -/
def fsg_model_init (name : String) (lw : Rat) (n_state : Nat) : FsgModel :=
  { name := name, lw := lw, n_state := n_state, start_state := 0,
    final_state := 0, vocab := [], transitions := [] }

/-- Modelled from the spec: fsg_set_states records the distinguished
start and final states. -/
def fsg_set_states (fsg : FsgModel) (start_state final_state : Nat) : FsgModel :=
  { fsg with start_state := start_state, final_state := final_state }

/-- Modelled from the spec: fsg_model_word_add returns the existing id
when the text is already present, otherwise appends it under the next
sequential id; an allocation failure (the C function returning -1) is
abstracted by the failWords oracle and modelled as none. -/
def fsg_model_word_add (failWords : String → Bool) (fsg : FsgModel) (w : String) :
    Option (FsgModel × Nat) :=
  match vocab_index fsg.vocab w with
  | some i => some (fsg, i)
  | none =>
      if failWords w then none
      else some ({ fsg with vocab := fsg.vocab ++ [w] }, fsg.vocab.length)

/-- Modelled from the spec: fsg_model_trans_add appends one labeled
transition, the language weight scaling the log-probability at storage
time. -/
def fsg_model_trans_add (fsg : FsgModel) (src dst : Nat) (logp : Int) (wid : Nat) :
    FsgModel :=
  { fsg with transitions := fsg.transitions ++
      [{ t_from := src, t_to := dst, logs2prob := (logp : Rat) * fsg.lw,
         wid := some wid }] }

/-- Modelled from the spec: fsg_model_null_trans_add appends one
unlabeled (epsilon) transition. -/
def fsg_model_null_trans_add (fsg : FsgModel) (src dst : Nat) (logp : Int) :
    FsgModel :=
  { fsg with transitions := fsg.transitions ++
      [{ t_from := src, t_to := dst, logs2prob := (logp : Rat) * fsg.lw,
         wid := none }] }

/-- A transition object passed to Decoder.create_fsg: keys from, to
and optionally prob and word. -/
structure JsTrans where
  t_from : Nat
  t_to : Nat
  prob : Option Rat
  word : Option String
deriving DecidableEq, Repr

/-- The loop of Decoder.create_fsg (src/unnamed/part_001 lines
987-1005): per transition, compute the log-probability (0 when no
prob key is present), then either add the word -- returning 0, that
is none, at the first failing add, after freeing the partial automaton
-- and append a labeled transition, or append a null transition. -/
def create_fsg_loop (lmathLog : Rat → Int) (failWords : String → Bool) :
    FsgModel → List JsTrans → Option FsgModel
  | fsg, [] => some fsg
  | fsg, t :: rest =>
      let logprob : Int :=
        match t.prob with
        | some p => lmathLog p
        | none => 0
      match t.word with
      | some w =>
          match fsg_model_word_add failWords fsg w with
          | none => none
          | some (fsg1, wid) =>
              create_fsg_loop lmathLog failWords
                (fsg_model_trans_add fsg1 t.t_from t.t_to logprob wid) rest
      | none =>
          create_fsg_loop lmathLog failWords
            (fsg_model_null_trans_add fsg t.t_from t.t_to logprob) rest

/-- Decoder.create_fsg (src/unnamed/part_001 lines 973-1013): infer
the state count as one plus the largest referenced state index, build
the empty automaton, record the start and final states, then run the
transition loop. -/
def create_fsg (lmathLog : Rat → Int) (failWords : String → Bool) (lw : Rat)
    (name : String) (start_state final_state : Nat) (ts : List JsTrans) :
    Option FsgModel :=
  let n_state := (ts.foldl (fun m t => max m (max t.t_from t.t_to)) 0) + 1
  create_fsg_loop lmathLog failWords
    (fsg_set_states (fsg_model_init name lw n_state) start_state final_state) ts

/-- A word found in the word table is a member of it. -/
theorem vocab_index_mem (l : List String) (w : String) (i : Nat)
    (h : vocab_index l w = some i) : w ∈ l := by
  induction l generalizing i with
  | nil => exact Option.noConfusion h
  | cons v rest ih =>
    rw [vocab_index] at h
    by_cases hv : v = w
    · rw [hv]
      exact List.mem_cons_self w rest
    · rw [if_neg hv] at h
      cases hrec : vocab_index rest w with
      | none => rw [hrec] at h; exact Option.noConfusion h
      | some j => exact List.mem_cons_of_mem v (ih j hrec)

/-- With no failing word add, the create_fsg loop always produces an
automaton; it preserves name, language weight, state count and
distinguished states, appends exactly one transition per input tuple,
keeps every existing word, and ends with every present word text in
the word table. -/
theorem create_fsg_loop_total (lmathLog : Rat → Int) (ts : List JsTrans) :
    ∀ fsg : FsgModel, ∃ out,
      create_fsg_loop lmathLog (fun _ => false) fsg ts = some out ∧
      out.name = fsg.name ∧ out.lw = fsg.lw ∧ out.n_state = fsg.n_state ∧
      out.start_state = fsg.start_state ∧ out.final_state = fsg.final_state ∧
      out.transitions.length = fsg.transitions.length + ts.length ∧
      (∀ w, w ∈ fsg.vocab → w ∈ out.vocab) ∧
      (∀ t ∈ ts, ∀ w, t.word = some w → w ∈ out.vocab) := by
  induction ts with
  | nil =>
    intro fsg
    exact ⟨fsg, rfl, rfl, rfl, rfl, rfl, rfl, by simp, fun w h => h, by simp⟩
  | cons t rest ih =>
    intro fsg
    cases hw : t.word with
    | none =>
      obtain ⟨out, hout, h1, h2, h3, h4, h5, h6, h7, h8⟩ :=
        ih (fsg_model_null_trans_add fsg t.t_from t.t_to
          (match t.prob with | some p => lmathLog p | none => 0))
      refine ⟨out, ?_, h1, h2, h3, h4, h5, ?_, h7, ?_⟩
      · rw [create_fsg_loop]
        simp only [hw]
        exact hout
      · rw [h6]
        simp [fsg_model_null_trans_add]
        omega
      · intro t' ht' w hw'
        rcases List.mem_cons.mp ht' with h | h
        · rw [h] at hw'
          rw [hw] at hw'
          exact Option.noConfusion hw'
        · exact h8 t' h w hw'
    | some w =>
      cases hfind : vocab_index fsg.vocab w with
      | some i =>
        obtain ⟨out, hout, h1, h2, h3, h4, h5, h6, h7, h8⟩ :=
          ih (fsg_model_trans_add fsg t.t_from t.t_to
            (match t.prob with | some p => lmathLog p | none => 0) i)
        refine ⟨out, ?_, h1, h2, h3, h4, h5, ?_, h7, ?_⟩
        · rw [create_fsg_loop]
          simp only [hw, fsg_model_word_add, hfind]
          exact hout
        · rw [h6]
          simp [fsg_model_trans_add]
          omega
        · intro t' ht' w' hw'
          rcases List.mem_cons.mp ht' with h | h
          · rw [h] at hw'
            rw [hw] at hw'
            have : w = w' := Option.some.inj hw'
            rw [← this]
            exact h7 w (vocab_index_mem fsg.vocab w i hfind)
          · exact h8 t' h w' hw'
      | none =>
        obtain ⟨out, hout, h1, h2, h3, h4, h5, h6, h7, h8⟩ :=
          ih (fsg_model_trans_add { fsg with vocab := fsg.vocab ++ [w] }
            t.t_from t.t_to
            (match t.prob with | some p => lmathLog p | none => 0)
            fsg.vocab.length)
        refine ⟨out, ?_, h1, h2, h3, h4, h5, ?_, ?_, ?_⟩
        · rw [create_fsg_loop]
          simp only [hw, fsg_model_word_add, hfind, if_neg Bool.false_ne_true]
          exact hout
        · rw [h6]
          simp [fsg_model_trans_add]
          omega
        · intro w' hmem
          apply h7
          simp [fsg_model_trans_add]
          exact Or.inl hmem
        · intro t' ht' w' hw'
          rcases List.mem_cons.mp ht' with h | h
          · rw [h] at hw'
            rw [hw] at hw'
            have : w = w' := Option.some.inj hw'
            rw [← this]
            apply h7
            simp [fsg_model_trans_add]
          · exact h8 t' h w' hw'

/-- The create_fsg loop returns none exactly when some transition
carries a word for which the word add fails, provided no word already
in the table is a failing one (true initially, since every table entry
was added successfully). -/
theorem create_fsg_loop_none_iff (lmathLog : Rat → Int)
    (failWords : String → Bool) (ts : List JsTrans) :
    ∀ fsg : FsgModel, (∀ w ∈ fsg.vocab, failWords w = false) →
      (create_fsg_loop lmathLog failWords fsg ts = none ↔
        ∃ t ∈ ts, ∃ w, t.word = some w ∧ failWords w = true) := by
  induction ts with
  | nil =>
    intro fsg _
    simp [create_fsg_loop]
  | cons t rest ih =>
    intro fsg hinv
    cases hw : t.word with
    | none =>
      rw [create_fsg_loop]
      simp only [hw]
      rw [ih (fsg_model_null_trans_add fsg t.t_from t.t_to
        (match t.prob with | some p => lmathLog p | none => 0)) hinv]
      constructor
      · rintro ⟨t', ht', w', hw', hf'⟩
        exact ⟨t', List.mem_cons_of_mem t ht', w', hw', hf'⟩
      · rintro ⟨t', ht', w', hw', hf'⟩
        rcases List.mem_cons.mp ht' with h | h
        · rw [h] at hw'
          rw [hw] at hw'
          exact Option.noConfusion hw'
        · exact ⟨t', h, w', hw', hf'⟩
    | some w =>
      cases hf : failWords w with
      | true =>
        have hfind : vocab_index fsg.vocab w = none := by
          cases hfind : vocab_index fsg.vocab w with
          | none => rfl
          | some i =>
            have := hinv w (vocab_index_mem fsg.vocab w i hfind)
            rw [hf] at this
            exact Bool.noConfusion this
        rw [create_fsg_loop]
        simp only [hw, fsg_model_word_add, hfind, hf, if_true]
        exact ⟨fun _ => ⟨t, List.mem_cons_self t rest, w, hw, hf⟩, fun _ => trivial⟩
      | false =>
        rw [create_fsg_loop]
        simp only [hw, fsg_model_word_add]
        have hnext : ∀ fsg1 : FsgModel, (∀ w' ∈ fsg1.vocab, failWords w' = false) →
            ∀ wid,
            (create_fsg_loop lmathLog failWords
              (fsg_model_trans_add fsg1 t.t_from t.t_to
                (match t.prob with | some p => lmathLog p | none => 0) wid) rest = none ↔
              ∃ t' ∈ t :: rest, ∃ w', t'.word = some w' ∧ failWords w' = true) := by
          intro fsg1 hinv1 wid
          rw [ih (fsg_model_trans_add fsg1 t.t_from t.t_to
            (match t.prob with | some p => lmathLog p | none => 0) wid) hinv1]
          constructor
          · rintro ⟨t', ht', w', hw', hf'⟩
            exact ⟨t', List.mem_cons_of_mem t ht', w', hw', hf'⟩
          · rintro ⟨t', ht', w', hw', hf'⟩
            rcases List.mem_cons.mp ht' with h | h
            · rw [h] at hw'
              rw [hw] at hw'
              have : w = w' := Option.some.inj hw'
              rw [← this] at hf'
              rw [hf] at hf'
              exact Bool.noConfusion hf'
            · exact ⟨t', h, w', hw', hf'⟩
        cases hfind : vocab_index fsg.vocab w with
        | some i => exact hnext fsg hinv i
        | none =>
          simp only [hf, if_neg Bool.false_ne_true]
          refine hnext { fsg with vocab := fsg.vocab ++ [w] } ?_ fsg.vocab.length
          intro w' hmem
          rcases List.mem_append.mp hmem with h | h
          · exact hinv w' h
          · rw [List.mem_singleton.mp h]
            exact hf

/-- C3: explicit-list grammar compilation with no failing word add
always yields an automaton whose state count is one plus the largest
state index referenced by the tuples, whose transition list has
exactly one entry per tuple, and whose word table contains every
present word text; on the tuples (0,1,1.0,a) and (1,2,1.0,b) with
start 0 and final 2 it yields 3 states, the word table mapping a to id
0 and b to id 1, and two labeled transitions with stored
log-probability 0, given that the engine log of 1 is 0. -/
theorem C3_create_fsg_explicit (lmathLog : Rat → Int) (hlog : lmathLog 1 = 0)
    (lw : Rat) :
    (∀ (name : String) (start_state final_state : Nat) (ts : List JsTrans),
      ∃ fsg, create_fsg lmathLog (fun _ => false) lw name start_state final_state
          ts = some fsg ∧
        fsg.n_state = (ts.foldl (fun m t => max m (max t.t_from t.t_to)) 0) + 1 ∧
        fsg.start_state = start_state ∧ fsg.final_state = final_state ∧
        fsg.transitions.length = ts.length ∧
        (∀ t ∈ ts, ∀ w, t.word = some w → w ∈ fsg.vocab)) ∧
    create_fsg lmathLog (fun _ => false) lw "g" 0 2
        [⟨0, 1, some 1, some "a"⟩, ⟨1, 2, some 1, some "b"⟩] =
      some { name := "g", lw := lw, n_state := 3, start_state := 0,
             final_state := 2, vocab := ["a", "b"],
             transitions := [⟨0, 1, 0, some 0⟩, ⟨1, 2, 0, some 1⟩] } := by
  constructor
  · intro name start_state final_state ts
    obtain ⟨out, hout, h1, h2, h3, h4, h5, h6, h7, h8⟩ :=
      create_fsg_loop_total lmathLog ts
        (fsg_set_states (fsg_model_init name lw
          ((ts.foldl (fun m t => max m (max t.t_from t.t_to)) 0) + 1))
          start_state final_state)
    refine ⟨out, hout, ?_, ?_, ?_, ?_, h8⟩
    · rw [h3]
      rfl
    · rw [h4]
      rfl
    · rw [h5]
      rfl
    · rw [h6]
      simp [fsg_set_states, fsg_model_init]
  · simp [create_fsg, create_fsg_loop, fsg_model_word_add, vocab_index,
      fsg_model_trans_add, fsg_set_states, fsg_model_init, hlog]

/-- Witness for C3: the concrete build with the engine log function
instantiated to the constant 0 (which satisfies log 1 = 0) and
language weight 13/2. -/
theorem C3_create_fsg_explicit_witness :
    ((fun _ : Rat => (0 : Int)) 1 = 0) ∧
    create_fsg (fun _ => 0) (fun _ => false) (13 / 2) "g" 0 2
        [⟨0, 1, some 1, some "a"⟩, ⟨1, 2, some 1, some "b"⟩] =
      some { name := "g", lw := 13 / 2, n_state := 3, start_state := 0,
             final_state := 2, vocab := ["a", "b"],
             transitions := [⟨0, 1, 0, some 0⟩, ⟨1, 2, 0, some 1⟩] } :=
  ⟨rfl, (C3_create_fsg_explicit (fun _ => 0) rfl (13 / 2)).2⟩

/-- C9: Decoder.create_fsg returns 0 (none) -- rather than throwing or
returning a partially built grammar -- exactly when some transition
carries a word whose addition to the word table fails; whenever no
word add fails, a complete grammar object is returned. -/
theorem C9_create_fsg_word_add_failure (lmathLog : Rat → Int)
    (failWords : String → Bool) (lw : Rat) (name : String)
    (start_state final_state : Nat) (ts : List JsTrans) :
    create_fsg lmathLog failWords lw name start_state final_state ts = none ↔
      ∃ t ∈ ts, ∃ w, t.word = some w ∧ failWords w = true := by
  rw [create_fsg]
  exact create_fsg_loop_none_iff lmathLog failWords ts
    (fsg_set_states (fsg_model_init name lw
      ((ts.foldl (fun m t => max m (max t.t_from t.t_to)) 0) + 1))
      start_state final_state)
    (by intro w h; exact absurd h (List.not_mem_nil w))

/-! ## Textual grammar rule resolution (Decoder.parse_jsgf)

The JSGF parser and rule table live in jsgf.c, which is not part of
the source tree; rule lookup is modelled from the spec (section 4.2):
resolve the target rule by explicit name, failing when absent
(classified ReferenceError by the error taxonomy of section 7), or by
the first rule marked public, failing when none is.  The control flow
around it is translated from Decoder.parse_jsgf (src/unnamed/part_001
lines 1024-1054). -/

/-- A parsed grammar rule: its name and whether it is marked
public. -/
structure JsgfRule where
  name : String
  is_public : Bool
deriving DecidableEq, Repr

/-- A parsed rule set, in definition order. -/
abbrev Jsgf := List JsgfRule

/-- Modelled from the spec: jsgf_get_rule finds the rule with the
given name. -/
def jsgf_get_rule (g : Jsgf) (name : String) : Option JsgfRule :=
  g.find? fun r => r.name == name

/-- Modelled from the spec: jsgf_get_public_rule finds the first rule
marked public. -/
def jsgf_get_public_rule (g : Jsgf) : Option JsgfRule :=
  g.find? fun r => r.is_public

/-- Failures of textual grammar compilation: malformed text, an
unknown explicit rule name (the ReferenceError kind of the error
taxonomy), or a rule set without any public rule. -/
inductive JsgfError where
  | parseError
  | referenceError (missing : String)
  | noPublicRule
deriving DecidableEq, Repr

/-- Decoder.parse_jsgf's resolution steps (src/unnamed/part_001 lines
1030-1044): a failed parse throws; with an explicit top rule the named
rule is resolved and its absence throws; without one the first public
rule is resolved and its absence throws.  The resolved rule is what
jsgf_build_fsg is then invoked on. -/
def parse_jsgf (parsed : Option Jsgf) (toprule : Option String) :
    Except JsgfError JsgfRule :=
  match parsed with
  | none => .error .parseError
  | some g =>
      match toprule with
      | some n =>
          match jsgf_get_rule g n with
          | none => .error (.referenceError n)
          | some r => .ok r
      | none =>
          match jsgf_get_public_rule g with
          | none => .error .noPublicRule
          | some r => .ok r

/-- C4: with an explicit rule name that no rule of the grammar bears,
resolution fails with the unknown-rule (ReferenceError) failure; with
no explicit name and no public rule, compilation fails; and a grammar
of two rules with exactly one marked public resolves, with no explicit
name, to the public rule in either definition order. -/
theorem C4_jsgf_rule_resolution (g : Jsgf) (n : String) (r1 r2 : JsgfRule) :
    ((∀ r ∈ g, r.name ≠ n) →
      parse_jsgf (some g) (some n) = .error (.referenceError n)) ∧
    ((∀ r ∈ g, r.is_public = false) →
      parse_jsgf (some g) none = .error .noPublicRule) ∧
    (r1.is_public = false → r2.is_public = true →
      parse_jsgf (some [r1, r2]) none = .ok r2 ∧
      parse_jsgf (some [r2, r1]) none = .ok r2) := by
  refine ⟨?_, ?_, ?_⟩
  · intro h
    have hfind : jsgf_get_rule g n = none := by
      rw [jsgf_get_rule, List.find?_eq_none]
      intro r hr
      simp only [beq_iff_eq]
      exact h r hr
    rw [parse_jsgf, hfind]
  · intro h
    have hfind : jsgf_get_public_rule g = none := by
      rw [jsgf_get_public_rule, List.find?_eq_none]
      intro r hr
      simp [h r hr]
    rw [parse_jsgf, hfind]
  · intro h1 h2
    constructor
    · rw [parse_jsgf]
      have : jsgf_get_public_rule [r1, r2] = some r2 := by
        simp [jsgf_get_public_rule, List.find?, h1, h2]
      rw [this]
    · rw [parse_jsgf]
      have : jsgf_get_public_rule [r2, r1] = some r2 := by
        simp [jsgf_get_public_rule, List.find?, h2]
      rw [this]

/-- Witness for C4 at a concrete grammar: one private rule a, one
public rule b, and an absent explicit name. -/
theorem C4_jsgf_rule_resolution_witness :
    ((∀ r ∈ ([⟨"a", false⟩] : Jsgf), r.name ≠ "missing") ∧
      (∀ r ∈ ([⟨"a", false⟩] : Jsgf), r.is_public = false) ∧
      (JsgfRule.mk "a" false).is_public = false ∧
      (JsgfRule.mk "b" true).is_public = true) ∧
    (parse_jsgf (some [⟨"a", false⟩]) (some "missing") =
        .error (.referenceError "missing") ∧
      parse_jsgf (some [⟨"a", false⟩]) none = .error .noPublicRule ∧
      parse_jsgf (some [⟨"a", false⟩, ⟨"b", true⟩]) none = .ok ⟨"b", true⟩ ∧
      parse_jsgf (some [⟨"b", true⟩, ⟨"a", false⟩]) none = .ok ⟨"b", true⟩) :=
  ⟨⟨by decide, by decide, rfl, rfl⟩,
    (C4_jsgf_rule_resolution [⟨"a", false⟩] "missing" ⟨"a", false⟩ ⟨"b", true⟩).1
      (by decide),
    (C4_jsgf_rule_resolution [⟨"a", false⟩] "missing" ⟨"a", false⟩ ⟨"b", true⟩).2.1
      (by decide),
    ((C4_jsgf_rule_resolution [⟨"a", false⟩] "missing" ⟨"a", false⟩
      ⟨"b", true⟩).2.2 rfl rfl).1,
    ((C4_jsgf_rule_resolution [⟨"a", false⟩] "missing" ⟨"a", false⟩
      ⟨"b", true⟩).2.2 rfl rfl).2⟩

/-! ## Leveled diagnostics and fatal entries (err.h)

The logging macros of src/include/soundswallower/err.h expand to a
fixed sequence of effects; we record those sequences.  E_FATAL (lines
78-82) and E_FATAL_SYSTEM (lines 87-91) emit a fatal-level message and
then call exit(EXIT_FAILURE); the non-fatal macros emit their message
and fall through, returning control to the caller. -/

/-- The logging levels of err_lvl_t. -/
inductive ErrLvl where
  | dbg
  | info
  | warn
  | error
  | fatal
deriving DecidableEq, Repr

/-- Observable effects of a logging macro expansion: emitting a
message at a level, terminating the hosting process with an exit code,
or falling through so that control returns to the caller. -/
inductive CEffect where
  | log (lvl : ErrLvl)
  | exitProcess (code : Nat)
  | returnToCaller
deriving DecidableEq, Repr

/-- E_FATAL (err.h lines 78-82): err_msg(ERR_FATAL, ...) then
exit(EXIT_FAILURE). -/
def E_FATAL : List CEffect := [.log .fatal, .exitProcess 1]

/-- E_FATAL_SYSTEM (err.h lines 87-91): err_msg_system(ERR_FATAL, ...)
then exit(EXIT_FAILURE). -/
def E_FATAL_SYSTEM : List CEffect := [.log .fatal, .exitProcess 1]

/-- E_ERROR (err.h line 101): err_msg(ERR_ERROR, ...) and fall
through. -/
def E_ERROR : List CEffect := [.log .error, .returnToCaller]

/-- Whether a macro expansion terminates the hosting process. -/
def terminates_process (es : List CEffect) : Bool :=
  es.any fun e =>
    match e with
    | .exitProcess _ => true
    | _ => false

/-- Whether a macro expansion returns control to the caller. -/
def returns_to_caller (es : List CEffect) : Bool :=
  es.any fun e =>
    match e with
    | .returnToCaller => true
    | _ => false

/-- C6 counterexample: E_FATAL emits a fatal-level entry and then
terminates the hosting process with exit(EXIT_FAILURE); control never
returns to the caller, so the fatal path is not surfaced as a returned
error. -/
theorem C6_fatal_exit_cex :
    CEffect.log ErrLvl.fatal ∈ E_FATAL ∧
    terminates_process E_FATAL = true ∧
    returns_to_caller E_FATAL = false := by decide

/-- C6 amended: every fatal-emitting macro of err.h (E_FATAL and
E_FATAL_SYSTEM) terminates the hosting process via exit(EXIT_FAILURE)
after emitting the message, and does not return control to the caller,
unlike the non-fatal levels, which log and fall through. -/
theorem C6_fatal_terminates_process :
    (CEffect.log ErrLvl.fatal ∈ E_FATAL ∧
      terminates_process E_FATAL = true ∧
      returns_to_caller E_FATAL = false) ∧
    (CEffect.log ErrLvl.fatal ∈ E_FATAL_SYSTEM ∧
      terminates_process E_FATAL_SYSTEM = true ∧
      returns_to_caller E_FATAL_SYSTEM = false) ∧
    (terminates_process E_ERROR = false ∧
      returns_to_caller E_ERROR = true) := by decide

end SoundSwallower
